import Mathlib

/-!
Verification of the Hierarchical Selection & Cache-Backed Loading Engine
of the Bible reader (src/main.js).

The JavaScript code is shallowly embedded: the mutable `BibleApp` instance
state relevant to the engine (`currentSelection`, `bibleData`, the visible
view) becomes an explicit `AppState` record, and each handler becomes a
state-transforming function.  DOM-only effects (populating `<select>`
elements, show/hide of controls, input placeholders) have no observable
engine state and are dropped; the visible view panel (welcome / loading /
reading / error, as driven by `showWelcome`/`showLoading`/`showReading`/
`showError`) is kept as `ViewState`.  JavaScript numbers arriving from
`parseInt` are modelled as `Int` (the code never produces fractional
selection values), `null`/absent as `Option`, and JavaScript truthiness of
the values that actually flow here (`null`, strings, integers) is modelled
explicitly.
-/

namespace Baiboly

/-- A book object of the loaded JSON payload.  The source field `abbrev` is a
Lean keyword, so it is named `abbreviation` here; `name` and `chapters` keep
their source names.  A chapter is an ordered list of verse strings. -/
structure Book where
  abbreviation : String
  name : String
  chapters : List (List String)
deriving Repr, DecidableEq

/-- The parsed document payload (`this.bibleData`): an ordered array of
books. -/
abbrev BookCollection := List Book

/-- One entry produced by `getVerseRange`: `{ verse: index + 1, text }`. -/
structure Verse where
  verse : Nat
  text : String
deriving Repr, DecidableEq

/-- Function `getVerseRange(chapterVerses, start, end)` from src/main.js lines
617-624: map every verse string to `{verse: index+1, text}`, then filter to
`start <= verse <= end`.  The source parameter `end` is a Lean keyword and is
named `endV`. -/
def getVerseRange (chapterVerses : List String) (start endV : Int) : List Verse :=
  let allVerses := chapterVerses.enum.map (fun p => { verse := p.1 + 1, text := p.2 : Verse })
  allVerses.filter (fun v => decide (start ≤ (v.verse : Int) ∧ (v.verse : Int) ≤ endV))

/-- JavaScript `x || d` for a nullable integer `x`: `null` and `0` are falsy
and give the default. -/
def orDefault (x : Option Int) (d : Int) : Int :=
  match x with
  | none => d
  | some n => if n = 0 then d else n

/-- JavaScript truthiness of a nullable string (`null` and `""` are falsy). -/
def truthyStr (x : Option String) : Bool :=
  match x with
  | none => false
  | some s => s ≠ ""

/-- JavaScript truthiness of a nullable integer (`null` and `0` are falsy). -/
def truthyInt (x : Option Int) : Bool :=
  match x with
  | none => false
  | some n => n ≠ 0

/-- State `this.currentSelection`: the four-level selection (document file name,
book abbreviation, chapter number, verse range). -/
structure Selection where
  bible : Option String
  book : Option String
  chapter : Option Int
  startVerse : Option Int
  endVerse : Option Int
deriving Repr, DecidableEq

/-- The all-null selection the constructor and `resetToWelcome` install. -/
def Selection.initial : Selection :=
  { bible := none, book := none, chapter := none, startVerse := none, endVerse := none }

/-- The visible view panel, as driven by the `showWelcome` / `showLoading` /
`showReading` / `showError` helpers; `reading` carries the rendered chapter
title and verse list produced by `renderVerses`. -/
inductive ViewState
  | welcome
  | loading
  | reading (title : String) (verses : List Verse)
  | error (message : String)
deriving Repr, DecidableEq

/-- The engine-relevant mutable state of a `BibleApp` instance. -/
structure AppState where
  selection : Selection
  bibleData : Option BookCollection
  view : ViewState
deriving Repr, DecidableEq

/-- The freshly constructed app: empty selection, no data, welcome screen. -/
def AppState.initial : AppState :=
  { selection := Selection.initial, bibleData := none, view := ViewState.welcome }

/-- Lookup `findBookByAbbrev(abbreviation)` (src/main.js lines 538-541): `null`
unless `bibleData` is an array; otherwise `Array.prototype.find` on the
abbreviation. -/
def findBookByAbbrev (bibleData : Option BookCollection) (ab : String) : Option Book :=
  match bibleData with
  | none => none
  | some books => books.find? (fun b => b.abbreviation == ab)

/-- Indexing `bookData.chapters[chapter - 1]` with a JavaScript array: `undefined`
(here `none`) when the index is negative or past the end. -/
def chapterAt (chapters : List (List String)) (chapter : Int) : Option (List String) :=
  if chapter ≥ 1 then chapters.get? (chapter - 1).toNat else none

/-- The title computation of `renderVerses` (src/main.js lines 629-635):
base `"{bookName} {chapterNumber}"`; suffix `":{start}"` when
`startVerse === endVerse`; else suffix `":{start}-{end}"` when
`startVerse !== 1 || endVerse !== verses.length + startVerse - 1`;
else no suffix.  `versesLength` is the length of the verse list actually
returned by `getVerseRange`. -/
def renderTitle (bookName : String) (chapterNumber : Int)
    (startVerse endV : Int) (versesLength : Nat) : String :=
  let title := bookName ++ " " ++ toString chapterNumber
  if startVerse = endV then
    title ++ ":" ++ toString startVerse
  else if startVerse ≠ 1 ∨ endV ≠ (versesLength : Int) + startVerse - 1 then
    title ++ ":" ++ toString startVerse ++ "-" ++ toString endV
  else
    title

/-- The view `displayCurrentSelection()` (src/main.js lines 258-286) settles
on.  Missing book or chapter selection shows the welcome view; a book or
chapter that cannot be resolved in the loaded data shows the
`'Chapter data not found.'` error; `start` defaults to 1 and `end` to the
chapter length via JavaScript `||`; an empty `getVerseRange` result shows
the `'No verses found for the specified range.'` error; otherwise the
rendered reading view is emitted. -/
def displayView (st : AppState) : ViewState :=
  if !(truthyStr st.selection.book) || !(truthyInt st.selection.chapter) then
    ViewState.welcome
  else
    let bookAb := st.selection.book.getD ""
    let chapter := st.selection.chapter.getD 0
    match findBookByAbbrev st.bibleData bookAb with
    | none => ViewState.error "Chapter data not found."
    | some bookData =>
      match chapterAt bookData.chapters chapter with
      | none => ViewState.error "Chapter data not found."
      | some chapterVerses =>
        let start := orDefault st.selection.startVerse 1
        let endV := orDefault st.selection.endVerse (chapterVerses.length : Int)
        let verses := getVerseRange chapterVerses start endV
        if verses.isEmpty then
          ViewState.error "No verses found for the specified range."
        else
          let title := renderTitle bookData.name chapter start endV verses.length
          ViewState.reading title verses

/-- Handler `displayCurrentSelection()` itself: it only switches the visible panels
(and, inside `renderVerses`, fills the title and verse elements), so on the
engine state it replaces the view with `displayView` and leaves the
selection and the loaded data untouched. -/
def displayCurrentSelection (st : AppState) : AppState :=
  { st with view := displayView st }

/-- One record of the IndexedDB object store `bibles` (keyPath `filename`),
as written by `cacheBible`. -/
structure CacheRecord where
  filename : String
  data : BookCollection
  cached_at : Nat
deriving Repr, DecidableEq

/-- The `bibles` object store: a list of records, at most one per
`filename` key once written only through `cacheBible`. -/
abbrev Store := List CacheRecord

/-- Read `getBibleFromCache(filename)` (src/main.js lines 348-364).  `this.db`
is `none` when IndexedDB is unavailable (the `onerror` path of
`initIndexedDB`), in which case every lookup resolves `null`; otherwise the
record for the key is fetched and `request.result?.data || null` returned
(a `BookCollection`, even `[]`, is a truthy JavaScript object, so a present
record always yields its `data`). -/
def getBibleFromCache (db : Option Store) (filename : String) : Option BookCollection :=
  match db with
  | none => none
  | some records =>
    match records.find? (fun r => r.filename == filename) with
    | some r => some r.data
    | none => none

/-- Write `cacheBible(filename, data)` (src/main.js lines 366-381): a silent no-op
without a database; otherwise `store.put` upserts the record for the key
with a fresh `cached_at` timestamp. -/
def cacheBible (db : Option Store) (filename : String) (data : BookCollection)
    (now : Nat) : Option Store :=
  match db with
  | none => none
  | some records =>
    some ({ filename := filename, data := data, cached_at := now } ::
      records.filter (fun r => r.filename != filename))

/-- The environment a document load runs against: the IndexedDB handle
(`none` when unavailable), the network (`fetch` + `response.json()`,
collapsed to one function whose `Except.error` carries the thrown
`error.message`), and the clock read by `cacheBible`. -/
structure LoadCtx where
  db : Option Store
  fetch : String → Except String BookCollection
  now : Nat

/-- The `try` block of `loadSelectedBible` (src/main.js lines 477-487):
read-through cache, then network with write-through on success.  Returns the
loaded collection together with the store as left after the best-effort
write-through. -/
def loadBibleData (ctx : LoadCtx) (filename : String) :
    Except String (BookCollection × Option Store) :=
  match getBibleFromCache ctx.db filename with
  | some data => Except.ok (data, ctx.db)
  | none =>
    match ctx.fetch filename with
    | Except.ok data => Except.ok (data, cacheBible ctx.db filename data ctx.now)
    | Except.error msg => Except.error msg

/-- Loader `loadSelectedBible(filename)` (src/main.js lines 474-497): show the
loading view, run `loadBibleData`; on success install the collection as
`this.bibleData` (`populateBookSelect` and `hideLoading` touch only the
DOM); on failure show `'Failed to load Bible: ' + error.message` and leave
`bibleData` as it was. -/
def loadSelectedBible (ctx : LoadCtx) (st : AppState) (filename : String) :
    AppState × Option Store :=
  let st1 := { st with view := ViewState.loading }
  match loadBibleData ctx filename with
  | Except.ok (data, db) => ({ st1 with bibleData := some data }, db)
  | Except.error msg =>
    ({ st1 with view := ViewState.error ("Failed to load Bible: " ++ msg) }, ctx.db)

/-- Reset `resetToWelcome()` (src/main.js lines 310-320): hide the controls, show
the welcome view and reset the whole selection.  `bibleData` is not
cleared. -/
def resetToWelcome (st : AppState) : AppState :=
  { st with view := ViewState.welcome, selection := Selection.initial }

/-- The `'chapter'` case of `handleSelectionChange` (src/main.js lines
178-192): store the value, clear the verse range; when the value is truthy,
re-render via `displayCurrentSelection` (`updateVerseInputLimits`,
`showVerseControls` and `clearVerseInputs` only touch the DOM); otherwise
only hide the verse controls. -/
def applyChapterChange (st : AppState) (value : Option Int) : AppState :=
  let st1 := { st with selection :=
    { st.selection with chapter := value, startVerse := none, endVerse := none } }
  if truthyInt value then displayCurrentSelection st1 else st1

/-- The `'book'` case of `handleSelectionChange` (src/main.js lines
159-176): store the value, clear chapter and verse range; when the value is
truthy, auto-select chapter 1 by the recursive `chapter` change
(`populateChapterSelect` and `showControls` only touch the DOM); otherwise
only hide the chapter controls. -/
def applyBookChange (st : AppState) (value : Option String) : AppState :=
  let st1 := { st with selection :=
    { st.selection with book := value, chapter := none, startVerse := none, endVerse := none } }
  if truthyStr value then applyChapterChange st1 (some 1) else st1

/-- The `'bible'` case of `handleSelectionChange` (src/main.js lines
139-157), with the awaited load taken as running to completion before
anything else happens (the interleaved variant is `startBibleChange` /
`resumeBibleLoad` below): store the value and clear every lower level; on a
truthy value run `loadSelectedBible` and then, whenever the *current*
`bibleData` is a non-empty array (also when the load failed and stale data
remains), auto-select its first book; on a falsy value `resetToWelcome`. -/
def applyBibleChange (ctx : LoadCtx) (st : AppState) (value : Option String) :
    AppState × Option Store :=
  let st1 := { st with selection :=
    { bible := value, book := none, chapter := none, startVerse := none, endVerse := none } }
  if truthyStr value then
    let (st2, db) := loadSelectedBible ctx st1 (value.getD "")
    match st2.bibleData with
    | some (b :: _) => (applyBookChange st2 (some b.abbreviation), db)
    | _ => (st2, db)
  else
    (resetToWelcome st1, ctx.db)

/-- The `'startVerse'` / `'endVerse'` cases of `handleSelectionChange`
(src/main.js lines 194-199): store the value in the named field — with no
validation of any kind — then re-render. -/
def applyStartVerseChange (st : AppState) (value : Option Int) : AppState :=
  displayCurrentSelection
    { st with selection := { st.selection with startVerse := value } }

/-- See `applyStartVerseChange`; the `'endVerse'` field. -/
def applyEndVerseChange (st : AppState) (value : Option Int) : AppState :=
  displayCurrentSelection
    { st with selection := { st.selection with endVerse := value } }

/-- One `handleSelectionChange(level, value)` request. -/
inductive LevelChange
  | bible (value : Option String)
  | book (value : Option String)
  | chapter (value : Option Int)
  | startVerse (value : Option Int)
  | endVerse (value : Option Int)
deriving Repr, DecidableEq

/-- Dispatcher `handleSelectionChange` (src/main.js lines 134-204) over over
the five levels; only the `bible` level touches the Document Store. -/
def handleSelectionChange (ctx : LoadCtx) (st : AppState) :
    LevelChange → AppState × Option Store
  | LevelChange.bible v => applyBibleChange ctx st v
  | LevelChange.book v => (applyBookChange st v, ctx.db)
  | LevelChange.chapter v => (applyChapterChange st v, ctx.db)
  | LevelChange.startVerse v => (applyStartVerseChange st v, ctx.db)
  | LevelChange.endVerse v => (applyEndVerseChange st v, ctx.db)

/-- JavaScript `Array.prototype.findIndex` on the abbreviation (src/main.js lines 230,
241): the index of the first match, `-1` when absent. -/
def findIndexJS (books : BookCollection) (ab : String) : Int :=
  match books.findIdx? (fun b => b.abbreviation == ab) with
  | some i => (i : Int)
  | none => -1

/-- The target a member of the engine reaches through `navigateChapter`
(src/main.js lines 206-225) together with `navigateToNextBook` /
`navigateToPreviousBook` (lines 227-256): the book abbreviation and chapter
number the cascade finally selects, or `none` when the click is a no-op
(missing selection, unknown book, or no adjacent book).  For a previous-book
move the deferred `setTimeout` step that selects the last chapter is
included, so the target chapter is the previous book's last chapter. -/
def navigateChapterTarget (bibleData : Option BookCollection) (sel : Selection)
    (direction : Int) : Option (String × Int) :=
  if !(truthyStr sel.book) || !(truthyInt sel.chapter) then none
  else
    let bookAb := sel.book.getD ""
    let chapter := sel.chapter.getD 0
    match findBookByAbbrev bibleData bookAb with
    | none => none
    | some book =>
      let newChapter := chapter + direction
      if 1 ≤ newChapter ∧ newChapter ≤ (book.chapters.length : Int) then
        some (bookAb, newChapter)
      else if direction = 1 ∧ newChapter > (book.chapters.length : Int) then
        match bibleData with
        | none => none
        | some books =>
          let i := findIndexJS books bookAb
          if i < (books.length : Int) - 1 then
            match books.get? (i + 1).toNat with
            | some nextBook => some (nextBook.abbreviation, 1)
            | none => none
          else none
      else if direction = -1 ∧ newChapter < 1 then
        match bibleData with
        | none => none
        | some books =>
          let i := findIndexJS books bookAb
          if i > 0 then
            match books.get? (i - 1).toNat with
            | some prevBook => some (prevBook.abbreviation, (prevBook.chapters.length : Int))
            | none => none
          else none
      else none

/-- The synchronous prefix of `handleSelectionChange('bible', value)` up to
the `await loadSelectedBible(value)` suspension point: the selection is
already rewritten and the loading view shown while the network request is
in flight. -/
def startBibleChange (st : AppState) (value : Option String) : AppState :=
  let st1 := { st with selection :=
    { bible := value, book := none, chapter := none, startVerse := none, endVerse := none } }
  if truthyStr value then { st1 with view := ViewState.loading } else resetToWelcome st1

/-- The resumption of a pending `handleSelectionChange('bible', filename)`
when its `loadSelectedBible` settles, applied to whatever the engine state
is at that moment (src/main.js lines 489-496 and 148-153; the Document
Store write-through of the same resumption is covered by `loadBibleData`).
On success the resolved collection is installed as `bibleData` —
unconditionally, with no comparison of `filename` against the current
`currentSelection.bible` — and the freshly read `this.bibleData`, when a
non-empty array, has its first book auto-selected.  On failure the load
error is shown and the same non-empty check runs against the stale
`bibleData`. -/
def resumeBibleLoad (st : AppState) (result : Except String BookCollection) : AppState :=
  match result with
  | Except.ok data =>
    let st1 := { st with bibleData := some data }
    match data with
    | b :: _ => applyBookChange st1 (some b.abbreviation)
    | [] => st1
  | Except.error msg =>
    let st1 := { st with view := ViewState.error ("Failed to load Bible: " ++ msg) }
    match st1.bibleData with
    | some (b :: _) => applyBookChange st1 (some b.abbreviation)
    | _ => st1

/-- Resolution `resolveVerses(chapter, verseStart, verseEnd)` as the engine performs it
(src/main.js lines 272-276): effective start `verseStart || 1`, effective
end `verseEnd || chapter.length`, then `getVerseRange`. -/
def resolveVerses (chapterVerses : List String) (verseStart verseEnd : Option Int) :
    List Verse :=
  getVerseRange chapterVerses (orDefault verseStart 1)
    (orDefault verseEnd (chapterVerses.length : Int))

/-- The descendant-implies-ancestor invariant of the spec: a non-null field
at a level implies every level above it is non-null. -/
def Selection.invariantHolds (s : Selection) : Prop :=
  (s.book.isSome → s.bible.isSome) ∧
  (s.chapter.isSome → s.book.isSome) ∧
  (s.startVerse.isSome → s.chapter.isSome) ∧
  (s.endVerse.isSome → s.chapter.isSome)

instance (s : Selection) : Decidable s.invariantHolds := by
  unfold Selection.invariantHolds; infer_instance

/-- The ancestor levels a change request relies on being already selected:
this is how the UI issues requests (the book list exists only once a
document is loaded, the chapter list once a book is chosen, the verse
inputs once a chapter is chosen). -/
def ancestorsSet (st : AppState) : LevelChange → Bool
  | LevelChange.bible _ => true
  | LevelChange.book _ => st.selection.bible.isSome
  | LevelChange.chapter _ => st.selection.book.isSome
  | LevelChange.startVerse _ => st.selection.chapter.isSome
  | LevelChange.endVerse _ => st.selection.chapter.isSome

/-- The title formatting rule in the words of the spec (section 4.4), for
comparison with `renderTitle`: base `"{bookDisplayName} {chapterNumber}"`,
suffix `":{start}"` when `start == end`, no suffix when the effective range
is exactly the full chapter `[1, chapterLength]`, suffix `":{start}-{end}"`
otherwise. -/
def specTitle (bookDisplayName : String) (chapterNumber : Int)
    (start endV chapterLength : Int) : String :=
  let base := bookDisplayName ++ " " ++ toString chapterNumber
  if start = endV then base ++ ":" ++ toString start
  else if start = 1 ∧ endV = chapterLength then base
  else base ++ ":" ++ toString start ++ "-" ++ toString endV

/-! ### Helper lemmas about `getVerseRange` -/

/-- Elements of `enumFrom` have strictly increasing indices. -/
lemma enumFrom_pairwise_fst {α : Type} (l : List α) :
    ∀ n : Nat, (List.enumFrom n l).Pairwise (fun a b => a.1 < b.1) := by
  induction l with
  | nil => intro n; simp
  | cons x xs ih =>
    intro n
    rw [List.enumFrom_cons]
    refine List.Pairwise.cons ?_ (ih (n + 1))
    intro b hb
    have hb' : (b.1, b.2) ∈ List.enumFrom (n + 1) xs := by
      simpa using hb
    have h := List.mem_enumFrom hb'
    omega

/-- Membership characterization of `getVerseRange`: exactly the 1-based
positions inside both the chapter and the requested interval, with the
chapter's text at that position. -/
lemma mem_getVerseRange (cv : List String) (s e : Int) (v : Verse) :
    v ∈ getVerseRange cv s e ↔
      1 ≤ v.verse ∧ v.verse ≤ cv.length ∧ s ≤ (v.verse : Int) ∧ (v.verse : Int) ≤ e ∧
        cv.get? (v.verse - 1) = some v.text := by
  unfold getVerseRange
  simp only [List.mem_filter, List.mem_map, decide_eq_true_eq]
  constructor
  · rintro ⟨⟨⟨i, t⟩, hmem, rfl⟩, hs, he⟩
    have hget : cv[i]? = some t := List.mem_enum_iff_getElem?.mp hmem
    have hlt : i < cv.length := by
      obtain ⟨h, -⟩ := List.getElem?_eq_some.mp hget
      exact h
    dsimp only at hs he ⊢
    refine ⟨by omega, by omega, hs, he, ?_⟩
    simpa [List.get?_eq_getElem?] using hget
  · rintro ⟨h1, h2, hs, he, hget⟩
    refine ⟨⟨(v.verse - 1, v.text), ?_, ?_⟩, hs, he⟩
    · rw [List.mem_enum_iff_getElem?]
      simpa [List.get?_eq_getElem?] using hget
    · cases v with
      | mk n t =>
        dsimp only at h1 ⊢
        congr 1
        omega

/-- Results of `getVerseRange` are sorted by strictly increasing verse number. -/
lemma getVerseRange_pairwise (cv : List String) (s e : Int) :
    (getVerseRange cv s e).Pairwise (fun a b => a.verse < b.verse) := by
  unfold getVerseRange
  apply List.Pairwise.filter
  rw [List.pairwise_map]
  have h := enumFrom_pairwise_fst cv 0
  exact h.imp (fun hlt => by dsimp only; omega)

/-- The requested interval empty means no verses at all. -/
lemma getVerseRange_eq_nil_of_lt (cv : List String) (s e : Int) (h : e < s) :
    getVerseRange cv s e = [] := by
  unfold getVerseRange
  rw [List.filter_eq_nil_iff]
  intro a _
  simp only [decide_eq_true_eq]
  omega

/-- Exact length of the returned range: the clipped interval's size. -/
lemma length_getVerseRange (cv : List String) (s e : Int) :
    ((getVerseRange cv s e).length : Int) =
      max 0 (min e (cv.length : Int) - max s 1 + 1) := by
  induction cv using List.reverseRecOn with
  | nil =>
    have h0 : getVerseRange [] s e = [] := rfl
    rw [h0]
    simp only [List.length_nil, List.length_nil, Nat.cast_zero, Int.natCast_zero]
    omega
  | append_singleton xs x ih =>
    unfold getVerseRange at ih ⊢
    rw [List.enum_append, List.map_append, List.filter_append, List.length_append]
    simp only [List.enumFrom_cons, List.enumFrom_nil, List.map_cons, List.map_nil,
      List.filter_cons, List.filter_nil, List.length_append]
    by_cases hc : s ≤ (xs.length : Int) + 1 ∧ (xs.length : Int) + 1 ≤ e
    · rw [if_pos (by simpa using hc)]
      push_cast
      push_cast at ih
      simp only [List.length_cons, List.length_nil]
      push_cast
      omega
    · rw [if_neg (by simpa using hc)]
      push_cast
      push_cast at ih
      simp only [List.length_cons, List.length_nil]
      push_cast
      omega

/-- With the default bounds `[1, chapter length]` the filter keeps every
verse. -/
lemma getVerseRange_full (cv : List String) :
    getVerseRange cv 1 (cv.length : Int) =
      cv.enum.map (fun p => { verse := p.1 + 1, text := p.2 : Verse }) := by
  unfold getVerseRange
  apply List.filter_eq_self.mpr
  intro a ha
  obtain ⟨⟨i, t⟩, hmem, rfl⟩ := List.mem_map.mp ha
  have hget : cv[i]? = some t := List.mem_enum_iff_getElem?.mp hmem
  obtain ⟨h, -⟩ := List.getElem?_eq_some.mp hget
  simp only [decide_eq_true_eq]
  push_cast
  omega

/-! ### The claims -/

/-- C6: `resolveVerses(chapter, null, null)` returns exactly the full
chapter — one entry per verse string, in the original order, with
`verseNumber` equal to the 1-based index of the verse in the chapter. -/
theorem resolveVerses_none_none_full_chapter (cv : List String) :
    (resolveVerses cv none none).length = cv.length ∧
    ∀ (i : Nat) (t : String), cv.get? i = some t →
      (resolveVerses cv none none).get? i = some { verse := i + 1, text := t } := by
  have hfull : resolveVerses cv none none =
      cv.enum.map (fun p => { verse := p.1 + 1, text := p.2 : Verse }) := by
    simpa [resolveVerses, orDefault] using getVerseRange_full cv
  constructor
  · rw [hfull, List.length_map, List.enum_length]
  · intro i t hget
    rw [List.get?_eq_getElem?] at hget
    rw [hfull, List.get?_eq_getElem?, List.getElem?_map, List.getElem?_enum, hget]
    rfl

/-- Witness for C6: the theorem applied to a concrete three-verse chapter,
checking the length and the middle entry. -/
theorem resolveVerses_none_none_full_chapter_witness :
    (resolveVerses ["v1", "v2", "v3"] none none).length = 3 ∧
    (resolveVerses ["v1", "v2", "v3"] none none).get? 1 =
      some { verse := 2, text := "v2" } :=
  ⟨(resolveVerses_none_none_full_chapter ["v1", "v2", "v3"]).1,
   (resolveVerses_none_none_full_chapter ["v1", "v2", "v3"]).2 1 "v2" rfl⟩

/-- C10: `getVerseRange` is total (a plain filter, nothing throws) and
returns exactly the 1-based positions lying in both `[start, end]` and
`[1, chapter length]`, each carrying the chapter's text at that position,
in strictly increasing verse order; the result is the empty list — not an
error — whenever `start > end` or `[start, end]` misses `[1, length]`. -/
theorem getVerseRange_total_characterization (cv : List String) (s e : Int) :
    (getVerseRange cv s e).Pairwise (fun a b => a.verse < b.verse) ∧
    (∀ v : Verse, v ∈ getVerseRange cv s e ↔
      1 ≤ v.verse ∧ v.verse ≤ cv.length ∧ s ≤ (v.verse : Int) ∧ (v.verse : Int) ≤ e ∧
        cv.get? (v.verse - 1) = some v.text) ∧
    (e < s → getVerseRange cv s e = []) ∧
    (e < 1 → getVerseRange cv s e = []) ∧
    ((cv.length : Int) < s → getVerseRange cv s e = []) := by
  refine ⟨getVerseRange_pairwise cv s e, mem_getVerseRange cv s e,
    fun h => getVerseRange_eq_nil_of_lt cv s e h, ?_, ?_⟩
  · intro h
    rw [List.eq_nil_iff_forall_not_mem]
    intro v hv
    obtain ⟨h1, h2, hs, he, -⟩ := (mem_getVerseRange cv s e v).mp hv
    omega
  · intro h
    rw [List.eq_nil_iff_forall_not_mem]
    intro v hv
    obtain ⟨h1, h2, hs, he, -⟩ := (mem_getVerseRange cv s e v).mp hv
    have : ((v.verse : Int)) ≤ (cv.length : Int) := by exact_mod_cast h2
    omega

/-- Witness for C10: a start-after-end request on a concrete chapter gives
the empty list. -/
theorem getVerseRange_total_characterization_witness :
    getVerseRange ["v1", "v2", "v3"] 4 2 = [] :=
  (getVerseRange_total_characterization ["v1", "v2", "v3"] 4 2).2.2.1 (by decide)

/-- C8: with storage available, `cacheBible` followed by `getBibleFromCache`
on the same id returns the cached content; with storage unavailable
(`db = none`), `getBibleFromCache` is the "not found" outcome for every id
and `cacheBible` is a silent no-op — both are total functions, so neither
throws nor aborts the caller. -/
theorem cache_roundtrip_and_degraded :
    (∀ (records : Store) (filename : String) (data : BookCollection) (now : Nat),
      getBibleFromCache (cacheBible (some records) filename data now) filename = some data) ∧
    (∀ filename : String, getBibleFromCache none filename = none) ∧
    (∀ (filename : String) (data : BookCollection) (now : Nat),
      cacheBible none filename data now = none) := by
  refine ⟨?_, fun _ => rfl, fun _ _ _ => rfl⟩
  intro records filename data now
  show (match List.find? (fun r => r.filename == filename)
      ({ filename := filename, data := data, cached_at := now } ::
        records.filter (fun r => r.filename != filename)) with
    | some r => some r.data
    | none => none) = some data
  rw [List.find?_cons_of_pos _ (by simp)]

/-- C5: chapter navigation with `direction` from a current book `B` (found
at index `i` of the collection) and current chapter `c`: within
`[1, B.chapters.length]` the target stays in `B` at `c + direction`; moving
forward from the last chapter targets the next book's chapter 1, and is a
no-op (AtEnd, `none`) when there is no next book; moving backward from
chapter 1 targets the previous book's last chapter, and is a no-op
(AtStart, `none`) when `B` is the first book. -/
theorem navigateChapter_boundary_behavior
    (books : BookCollection) (sel : Selection) (i : Nat) (B : Book) (c : Int)
    (hbook : sel.book = some B.abbreviation)
    (hchap : sel.chapter = some c)
    (hab : B.abbreviation ≠ "")
    (hfind : findBookByAbbrev (some books) B.abbreviation = some B)
    (hidx : books.findIdx? (fun b => b.abbreviation == B.abbreviation) = some i)
    (hc1 : 1 ≤ c) :
    (∀ direction : Int, 1 ≤ c + direction → c + direction ≤ (B.chapters.length : Int) →
      navigateChapterTarget (some books) sel direction = some (B.abbreviation, c + direction)) ∧
    (c = (B.chapters.length : Int) →
      (∀ B' : Book, books.get? (i + 1) = some B' →
        navigateChapterTarget (some books) sel 1 = some (B'.abbreviation, 1)) ∧
      (books.get? (i + 1) = none → navigateChapterTarget (some books) sel 1 = none)) ∧
    (c = 1 →
      (∀ B' : Book, 1 ≤ i → books.get? (i - 1) = some B' →
        navigateChapterTarget (some books) sel (-1) =
          some (B'.abbreviation, (B'.chapters.length : Int))) ∧
      (i = 0 → navigateChapterTarget (some books) sel (-1) = none)) := by
  have htS : truthyStr sel.book = true := by
    rw [hbook]; simp [truthyStr, hab]
  have htI : truthyInt sel.chapter = true := by
    rw [hchap]; simp [truthyInt]; omega
  have hguard : (!(truthyStr sel.book) || !(truthyInt sel.chapter)) = false := by
    rw [htS, htI]; rfl
  refine ⟨?_, ?_, ?_⟩
  · intro direction hlo hhi
    unfold navigateChapterTarget
    rw [hguard]
    simp only [Bool.false_eq_true, if_false, hbook, hchap, Option.getD_some, hfind]
    rw [if_pos ⟨hlo, hhi⟩]
  · intro hc
    constructor
    · intro B' hB'
      have hlt : i + 1 < books.length := by
        obtain ⟨h, -⟩ := List.getElem?_eq_some.mp (by
          simpa [List.get?_eq_getElem?] using hB')
        exact h
      unfold navigateChapterTarget
      rw [hguard]
      simp only [Bool.false_eq_true, if_false, hbook, hchap, Option.getD_some, hfind]
      rw [if_neg (by omega), if_pos ⟨by trivial, by omega⟩]
      simp only [findIndexJS, hidx]
      rw [if_pos (by omega)]
      have : ((i : Int) + 1).toNat = i + 1 := by omega
      rw [this, hB']
    · intro hB'
      have hge : books.length ≤ i + 1 := by
        rw [List.get?_eq_getElem?] at hB'
        simpa using List.getElem?_eq_none_iff.mp hB'
      unfold navigateChapterTarget
      rw [hguard]
      simp only [Bool.false_eq_true, if_false, hbook, hchap, Option.getD_some, hfind]
      rw [if_neg (by omega), if_pos ⟨by trivial, by omega⟩]
      simp only [findIndexJS, hidx]
      rw [if_neg (by omega)]
  · intro hc
    constructor
    · intro B' hi hB'
      unfold navigateChapterTarget
      rw [hguard]
      simp only [Bool.false_eq_true, if_false, hbook, hchap, Option.getD_some, hfind]
      rw [if_neg (by omega), if_neg (by omega), if_pos ⟨by trivial, by omega⟩]
      simp only [findIndexJS, hidx]
      rw [if_pos (by omega)]
      have : ((i : Int) - 1).toNat = i - 1 := by omega
      rw [this, hB']
    · intro hi
      unfold navigateChapterTarget
      rw [hguard]
      simp only [Bool.false_eq_true, if_false, hbook, hchap, Option.getD_some, hfind]
      rw [if_neg (by omega), if_neg (by omega), if_pos ⟨by trivial, by omega⟩]
      simp only [findIndexJS, hidx]
      rw [if_neg (by omega)]

/-! ### Helper lemmas about the selection handlers -/

/-- JavaScript `n || d` keeps a nonzero `n`. -/
lemma orDefault_some (n d : Int) (h : n ≠ 0) : orDefault (some n) d = n := by
  simp [orDefault, h]

/-- A truthy nullable string is non-null. -/
lemma truthyStr_isSome (v : Option String) (h : truthyStr v = true) :
    v.isSome = true := by
  cases v with
  | none => simp [truthyStr] at h
  | some s => rfl

/-- In-bounds requests return exactly `end - start + 1` verses. -/
lemma length_getVerseRange_of_bounds (cv : List String) (s e : Int)
    (h1 : 1 ≤ s) (h2 : s ≤ e) (h3 : e ≤ (cv.length : Int)) :
    ((getVerseRange cv s e).length : Int) = e - s + 1 := by
  rw [length_getVerseRange]
  omega

/-- In-bounds requests are non-empty. -/
lemma getVerseRange_ne_nil_of_bounds (cv : List String) (s e : Int)
    (h1 : 1 ≤ s) (h2 : s ≤ e) (h3 : e ≤ (cv.length : Int)) :
    getVerseRange cv s e ≠ [] := by
  intro h
  have := length_getVerseRange_of_bounds cv s e h1 h2 h3
  rw [h] at this
  simp at this
  omega

/-- A chapter change rewrites the chapter and clears the verse range, and
nothing else of the selection. -/
lemma applyChapterChange_selection (st : AppState) (v : Option Int) :
    (applyChapterChange st v).selection =
      { st.selection with chapter := v, startVerse := none, endVerse := none } := by
  unfold applyChapterChange
  split <;> rfl

/-- A chapter change leaves the loaded collection alone. -/
lemma applyChapterChange_bibleData (st : AppState) (v : Option Int) :
    (applyChapterChange st v).bibleData = st.bibleData := by
  unfold applyChapterChange
  split <;> rfl

/-- A truthy book change rewrites the book and auto-selects chapter 1 with a
cleared verse range. -/
lemma applyBookChange_selection_pos (st : AppState) (v : Option String)
    (hv : truthyStr v = true) :
    (applyBookChange st v).selection =
      { st.selection with
          book := v
          chapter := some 1
          startVerse := none
          endVerse := none } := by
  unfold applyBookChange
  rw [if_pos hv, applyChapterChange_selection]

/-- A falsy book change rewrites the book and clears every lower level. -/
lemma applyBookChange_selection_neg (st : AppState) (v : Option String)
    (hv : truthyStr v = false) :
    (applyBookChange st v).selection =
      { st.selection with
          book := v
          chapter := none
          startVerse := none
          endVerse := none } := by
  unfold applyBookChange
  rw [hv]
  rfl

/-- A book change leaves the loaded collection alone. -/
lemma applyBookChange_bibleData (st : AppState) (v : Option String) :
    (applyBookChange st v).bibleData = st.bibleData := by
  unfold applyBookChange
  split
  · exact applyChapterChange_bibleData _ _
  · rfl

/-- The view of a truthy book change is the rendered view of the cascaded
selection (book set, chapter 1, verse range cleared). -/
lemma applyBookChange_view_pos (st : AppState) (v : Option String)
    (hv : truthyStr v = true) :
    (applyBookChange st v).view =
      displayView { st with selection :=
        { st.selection with
            book := v
            chapter := some 1
            startVerse := none
            endVerse := none } } := by
  unfold applyBookChange
  rw [if_pos hv]
  unfold applyChapterChange
  rw [if_pos (show truthyInt (some 1) = true from rfl)]
  rfl

/-- A document load keeps the selection as it was. -/
lemma loadSelectedBible_selection (ctx : LoadCtx) (st : AppState) (f : String) :
    ((loadSelectedBible ctx st f).1).selection = st.selection := by
  unfold loadSelectedBible
  cases h : loadBibleData ctx f with
  | ok p => cases p; rfl
  | error msg => rfl

/-- When the book and chapter selections resolve inside the loaded data, the
rendered view is decided by the verse range alone. -/
lemma displayView_resolved (st : AppState) (bk : Book) (cv : List String)
    (hb : truthyStr st.selection.book = true)
    (hc : truthyInt st.selection.chapter = true)
    (hfind : findBookByAbbrev st.bibleData (st.selection.book.getD "") = some bk)
    (hcv : chapterAt bk.chapters (st.selection.chapter.getD 0) = some cv) :
    displayView st =
      if (getVerseRange cv (orDefault st.selection.startVerse 1)
            (orDefault st.selection.endVerse (cv.length : Int))).isEmpty then
        ViewState.error "No verses found for the specified range."
      else
        ViewState.reading
          (renderTitle bk.name (st.selection.chapter.getD 0)
            (orDefault st.selection.startVerse 1)
            (orDefault st.selection.endVerse (cv.length : Int))
            (getVerseRange cv (orDefault st.selection.startVerse 1)
              (orDefault st.selection.endVerse (cv.length : Int))).length)
          (getVerseRange cv (orDefault st.selection.startVerse 1)
            (orDefault st.selection.endVerse (cv.length : Int))) := by
  unfold displayView
  rw [show (!(truthyStr st.selection.book) || !(truthyInt st.selection.chapter)) = false by
    rw [hb, hc]; rfl]
  simp only [Bool.false_eq_true, if_false, hfind, hcv]

/-- When the selected chapter does not exist in the resolved book, the
rendered view is the chapter-not-found error. -/
lemma displayView_chapter_not_found (st : AppState) (bk : Book)
    (hb : truthyStr st.selection.book = true)
    (hc : truthyInt st.selection.chapter = true)
    (hfind : findBookByAbbrev st.bibleData (st.selection.book.getD "") = some bk)
    (hcv : chapterAt bk.chapters (st.selection.chapter.getD 0) = none) :
    displayView st = ViewState.error "Chapter data not found." := by
  unfold displayView
  rw [show (!(truthyStr st.selection.book) || !(truthyInt st.selection.chapter)) = false by
    rw [hb, hc]; rfl]
  simp only [Bool.false_eq_true, if_false, hfind, hcv]

/-! ### Concrete fixtures used by witnesses and counterexamples -/

/-- A two-verse single-chapter book. -/
def bookA2 : Book := { abbreviation := "a", name := "A", chapters := [["v1", "v2"]] }

/-- A one-verse single-chapter book. -/
def bookA1 : Book := { abbreviation := "a", name := "A", chapters := [["v1"]] }

/-- The spec's navigation example: book A with three chapters. -/
def bookA5 : Book := { abbreviation := "a", name := "A", chapters := [["a1"], ["a2"], ["a3"]] }

/-- The spec's navigation example: book B with one chapter. -/
def bookB5 : Book := { abbreviation := "b", name := "B", chapters := [["b1"]] }

/-- The spec's two-book collection. -/
def booksAB : BookCollection := [bookA5, bookB5]

/-- A selection sitting at a given book and chapter of a loaded document. -/
def selOf (ab : String) (c : Int) : Selection :=
  { bible := some "doc"
    book := some ab
    chapter := some c
    startVerse := none
    endVerse := none }

/-- A state with both verse bounds set (to verse 2 of a two-verse chapter). -/
def stBothSet : AppState :=
  { selection :=
      { bible := some "X"
        book := some "a"
        chapter := some 1
        startVerse := some 2
        endVerse := some 2 }
    bibleData := some [bookA2]
    view := ViewState.welcome }

/-- A state with both verse bounds set to verse 1. -/
def stBothSet2 : AppState :=
  { selection :=
      { bible := some "X"
        book := some "a"
        chapter := some 1
        startVerse := some 1
        endVerse := some 1 }
    bibleData := some [bookA2]
    view := ViewState.welcome }

/-- A state reading chapter 2 of the three-chapter book A. -/
def stChap2 : AppState :=
  { selection :=
      { bible := some "X"
        book := some "a"
        chapter := some 2
        startVerse := none
        endVerse := none }
    bibleData := some booksAB
    view := ViewState.welcome }

/-- A load environment that always succeeds with the concrete collection. -/
def ctx0 : LoadCtx :=
  { db := none, fetch := fun _ => Except.error "offline", now := 0 }

/-- C1 counterexample: from a state with `startVerse = 2` and
`endVerse = 2` over a two-verse chapter, the `endVerse` change to `1`
(making `verseStart > verseEnd`) is *not* rejected: the field is updated to
`1`, and the view is the "No verses found" error that
`displayCurrentSelection` derives from the empty `getVerseRange` result —
i.e. the Range Navigator *was* invoked; no `InvalidVerseRange` outcome
exists anywhere in the code. -/
theorem invalid_verse_range_counterexample :
    (applyEndVerseChange stBothSet (some 1)).selection.endVerse = some 1 ∧
    stBothSet.selection.endVerse = some 2 ∧
    getVerseRange ["v1", "v2"] 2 1 = [] ∧
    (applyEndVerseChange stBothSet (some 1)).view =
      ViewState.error "No verses found for the specified range." :=
  ⟨rfl, rfl, rfl, rfl⟩

/-- C1 (amended): the code performs no verse-range validation.  A
`verseStart` or `verseEnd` change that makes `verseStart > verseEnd` (with
both nonzero) *updates* the offending field, and `getVerseRange` *is*
invoked: it returns the empty list, which `displayCurrentSelection` turns
into the `'No verses found for the specified range.'` error view. -/
theorem verse_change_no_validation (st : AppState) (bk : Book) (cv : List String)
    (s e : Int)
    (hbook : truthyStr st.selection.book = true)
    (hchapT : truthyInt st.selection.chapter = true)
    (hfind : findBookByAbbrev st.bibleData (st.selection.book.getD "") = some bk)
    (hcv : chapterAt bk.chapters (st.selection.chapter.getD 0) = some cv) :
    (st.selection.startVerse = some s → s ≠ 0 → e ≠ 0 → e < s →
      (applyEndVerseChange st (some e)).selection.endVerse = some e ∧
      (applyEndVerseChange st (some e)).view =
        ViewState.error "No verses found for the specified range.") ∧
    (st.selection.endVerse = some e → s ≠ 0 → e ≠ 0 → e < s →
      (applyStartVerseChange st (some s)).selection.startVerse = some s ∧
      (applyStartVerseChange st (some s)).view =
        ViewState.error "No verses found for the specified range.") := by
  constructor
  · intro hs hs0 he0 hlt
    refine ⟨rfl, ?_⟩
    show displayView { st with selection := { st.selection with endVerse := some e } } = _
    rw [displayView_resolved { st with selection := { st.selection with endVerse := some e } }
      bk cv hbook hchapT hfind hcv]
    dsimp only
    rw [hs, orDefault_some s 1 hs0, orDefault_some e _ he0,
      getVerseRange_eq_nil_of_lt cv s e hlt]
    rfl
  · intro he hs0 he0 hlt
    refine ⟨rfl, ?_⟩
    show displayView { st with selection := { st.selection with startVerse := some s } } = _
    rw [displayView_resolved { st with selection := { st.selection with startVerse := some s } }
      bk cv hbook hchapT hfind hcv]
    dsimp only
    rw [he, orDefault_some s 1 hs0, orDefault_some e _ he0,
      getVerseRange_eq_nil_of_lt cv s e hlt]
    rfl

/-- Witness for C1's amended theorem: changing `startVerse` to 3 past an
`endVerse` of 1 updates the field and yields the no-verses error view. -/
theorem verse_change_no_validation_witness :
    (applyStartVerseChange stBothSet2 (some 3)).selection.startVerse = some 3 ∧
    (applyStartVerseChange stBothSet2 (some 3)).view =
      ViewState.error "No verses found for the specified range." :=
  (verse_change_no_validation stBothSet2 bookA2 ["v1", "v2"] 3 1
    rfl rfl rfl rfl).2 rfl (by decide) (by decide) (by decide)

/-- C4 counterexample: from chapter 2 of the three-chapter book A, the
chapter change to 99 is *not* rejected with `ChapterOutOfRange`: the
selection's chapter becomes 99 (the previous value 2 is lost) and the view
is the generic `'Chapter data not found.'` error. -/
theorem chapter_out_of_range_counterexample :
    (applyChapterChange stChap2 (some 99)).selection.chapter = some 99 ∧
    stChap2.selection.chapter = some 2 ∧
    (applyChapterChange stChap2 (some 99)).view =
      ViewState.error "Chapter data not found." :=
  ⟨rfl, rfl, rfl⟩

/-- C4 (amended): a chapter change to a nonzero value outside
`[1, book.chapters.length]` *updates* `Selection.chapterNumber` to that
value (the previous chapter selection is not preserved), clears the verse
range, and emits the `'Chapter data not found.'` error view; no
`ChapterOutOfRange` outcome exists in the code. -/
theorem chapter_change_no_validation (st : AppState) (bk : Book) (v : Int)
    (hbook : truthyStr st.selection.book = true)
    (hfind : findBookByAbbrev st.bibleData (st.selection.book.getD "") = some bk)
    (hv : v ≠ 0)
    (hout : v < 1 ∨ (bk.chapters.length : Int) < v) :
    (applyChapterChange st (some v)).selection.chapter = some v ∧
    (applyChapterChange st (some v)).selection.startVerse = none ∧
    (applyChapterChange st (some v)).selection.endVerse = none ∧
    (applyChapterChange st (some v)).view =
      ViewState.error "Chapter data not found." := by
  have ht : truthyInt (some v) = true := by simp [truthyInt, hv]
  have hsel := applyChapterChange_selection st (some v)
  refine ⟨by rw [hsel], by rw [hsel], by rw [hsel], ?_⟩
  unfold applyChapterChange
  rw [if_pos ht]
  show displayView { st with selection :=
    { st.selection with chapter := some v, startVerse := none, endVerse := none } } = _
  have hcv : chapterAt bk.chapters v = none := by
    unfold chapterAt
    rcases hout with h | h
    · rw [if_neg (by omega)]
    · rw [if_pos (by omega)]
      rw [List.get?_eq_getElem?]
      rw [List.getElem?_eq_none_iff]
      omega
  exact displayView_chapter_not_found _ bk hbook ht hfind hcv

/-- Witness for C4's amended theorem: the concrete chapter-99 change. -/
theorem chapter_change_no_validation_witness :
    (applyChapterChange stChap2 (some 99)).selection.chapter = some 99 ∧
    (applyChapterChange stChap2 (some 99)).selection.startVerse = none ∧
    (applyChapterChange stChap2 (some 99)).selection.endVerse = none ∧
    (applyChapterChange stChap2 (some 99)).view =
      ViewState.error "Chapter data not found." :=
  chapter_change_no_validation stChap2 bookA5 99 rfl rfl (by decide)
    (Or.inr (by decide))

/-- Witness for C5: the spec's boundary example — two books, A with three
chapters and B with one: forward from A's chapter 3 lands on B chapter 1;
backward from B chapter 1 lands on A chapter 3; backward from A chapter 1
and forward from B chapter 1 are no-ops. -/
theorem navigateChapter_boundary_behavior_witness :
    navigateChapterTarget (some booksAB) (selOf "a" 3) 1 = some ("b", 1) ∧
    navigateChapterTarget (some booksAB) (selOf "b" 1) (-1) = some ("a", 3) ∧
    navigateChapterTarget (some booksAB) (selOf "a" 1) (-1) = none ∧
    navigateChapterTarget (some booksAB) (selOf "b" 1) 1 = none := by
  refine ⟨?_, ?_, ?_, ?_⟩
  · exact ((navigateChapter_boundary_behavior booksAB (selOf "a" 3) 0 bookA5 3
      rfl rfl (by decide) (by decide) (by decide) (by decide)).2.1 (by decide)).1
      bookB5 rfl
  · exact ((navigateChapter_boundary_behavior booksAB (selOf "b" 1) 1 bookB5 1
      rfl rfl (by decide) (by decide) (by decide) (by decide)).2.2 rfl).1
      bookA5 (by decide) rfl
  · exact ((navigateChapter_boundary_behavior booksAB (selOf "a" 1) 0 bookA5 1
      rfl rfl (by decide) (by decide) (by decide) (by decide)).2.2 rfl).2 rfl
  · exact ((navigateChapter_boundary_behavior booksAB (selOf "b" 1) 1 bookB5 1
      rfl rfl (by decide) (by decide) (by decide) (by decide)).2.1 (by decide)).2 rfl

/-- A five-verse single-chapter book named "Book". -/
def bookFive : Book :=
  { abbreviation := "c", name := "Book", chapters := [["w1", "w2", "w3", "w4", "w5"]] }

/-- A state reading the five-verse chapter with only `endVerse = 3` set, so
the effective range is `[1, 3]` — a strict prefix of the chapter. -/
def stPrefixRange : AppState :=
  { selection :=
      { bible := some "X"
        book := some "c"
        chapter := some 1
        startVerse := none
        endVerse := some 3 }
    bibleData := some [bookFive]
    view := ViewState.welcome }

/-- C7 counterexample: for the effective range `[1, 3]` of a five-verse
chapter — not the full chapter — the emitted title is `"Book 1"` with *no*
verse suffix, while the claim's rule demands `"Book 1:1-3"`: the code's
condition compares `endVerse` against `verses.length + startVerse - 1`
(range truncation), not against the chapter length. -/
theorem title_full_chapter_counterexample :
    (displayCurrentSelection stPrefixRange).view =
      ViewState.reading "Book 1"
        [{ verse := 1, text := "w1" }, { verse := 2, text := "w2" },
         { verse := 3, text := "w3" }] ∧
    specTitle "Book" 1 1 3 5 = "Book 1:1-3" ∧
    ("Book 1" : String) ≠ "Book 1:1-3" :=
  ⟨rfl, rfl, by decide⟩

/-- C7 (amended): for an in-bounds effective range
`1 ≤ start ≤ end ≤ chapter length`, the title carries suffix `":{start}"`
when `start = end`; otherwise it carries *no* suffix exactly when
`start = 1` — even when `end` is short of the chapter length — and suffix
`":{start}-{end}"` otherwise.  (With an in-bounds range the returned list
has `end - start + 1` entries, so the code's
`endVerse !== verses.length + startVerse - 1` test never fires and only
`startVerse !== 1` decides the suffix.) -/
theorem title_formatting_actual (bookName : String) (c : Int)
    (cv : List String) (s e : Int)
    (h1 : 1 ≤ s) (h2 : s ≤ e) (h3 : e ≤ (cv.length : Int)) :
    renderTitle bookName c s e (getVerseRange cv s e).length =
      (if s = e then bookName ++ " " ++ toString c ++ ":" ++ toString s
       else if s = 1 then bookName ++ " " ++ toString c
       else bookName ++ " " ++ toString c ++ ":" ++ toString s ++ "-" ++ toString e) := by
  have hlen : (((getVerseRange cv s e).length : Nat) : Int) = e - s + 1 :=
    length_getVerseRange_of_bounds cv s e h1 h2 h3
  unfold renderTitle
  by_cases hse : s = e
  · rw [if_pos hse, if_pos hse]
  · rw [if_neg hse, if_neg hse]
    by_cases hs1 : s = 1
    · have hcond : ¬(s ≠ 1 ∨ e ≠ (((getVerseRange cv s e).length : Nat) : Int) + s - 1) := by
        rw [hlen]
        push_neg
        exact ⟨hs1, by omega⟩
      rw [if_neg hcond, if_pos hs1]
    · rw [if_pos (Or.inl hs1), if_neg hs1]

/-- Witness for C7's amended theorem: the `[1, 3]` prefix of the five-verse
chapter renders with no suffix. -/
theorem title_formatting_actual_witness :
    renderTitle "Book" 1 1 3 (getVerseRange ["w1", "w2", "w3", "w4", "w5"] 1 3).length =
      "Book 1" :=
  (title_formatting_actual "Book" 1 ["w1", "w2", "w3", "w4", "w5"] 1 3
    (by decide) (by decide) (by decide)).trans (by decide)

/-- A document-only selection satisfies the invariant. -/
lemma invariantHolds_doc_only (v : Option String) :
    Selection.invariantHolds
      { bible := v, book := none, chapter := none,
        startVerse := none, endVerse := none } :=
  ⟨fun h => by simp at h, fun h => by simp at h,
   fun h => by simp at h, fun h => by simp at h⟩

/-- A book change from a state whose document is selected produces a
selection satisfying the descendant-implies-ancestor invariant. -/
lemma applyBookChange_invariantHolds (st : AppState) (v : Option String)
    (hb : st.selection.bible.isSome = true) :
    (applyBookChange st v).selection.invariantHolds := by
  by_cases hv : truthyStr v = true
  · rw [applyBookChange_selection_pos st v hv]
    exact ⟨fun _ => hb, fun _ => truthyStr_isSome v hv, fun _ => rfl, fun _ => rfl⟩
  · rw [applyBookChange_selection_neg st v (by simpa using hv)]
    refine ⟨fun _ => hb, fun h => ?_, fun h => ?_, fun h => ?_⟩ <;> simp at h

/-- C3 counterexample: applying a chapter change in isolation, from the
initial state where no document and no book are selected, yields a
selection with `chapterNumber = 3` but `bookAbbreviation = null` — the
handler never checks that the ancestor levels are set, so the
descendant-implies-ancestor invariant fails. -/
theorem invariant_counterexample :
    (applyChapterChange AppState.initial (some 3)).selection.chapter = some 3 ∧
    (applyChapterChange AppState.initial (some 3)).selection.book = none ∧
    ¬ (applyChapterChange AppState.initial (some 3)).selection.invariantHolds :=
  ⟨rfl, rfl, by decide⟩

/-- C3 (amended): every level change still clears all descendant levels
(book/chapter resets below a document change, verse range below a chapter
change, everything on a document cleared to null), and the
descendant-implies-ancestor invariant is preserved by any level change
*whose immediate ancestor level is already set* — which is how the UI
issues them.  A change at a level whose ancestor is unset, however, is
stored without validation and can violate the invariant
(see the counterexample). -/
theorem invariant_preservation_guarded :
    (∀ (ctx : LoadCtx) (st : AppState) (lc : LevelChange),
        st.selection.invariantHolds → ancestorsSet st lc = true →
        ((handleSelectionChange ctx st lc).1).selection.invariantHolds) ∧
    (∀ (ctx : LoadCtx) (st : AppState),
        ((applyBibleChange ctx st none).1).selection = Selection.initial) ∧
    (∀ st : AppState,
        (applyBookChange st none).selection.chapter = none ∧
        (applyBookChange st none).selection.startVerse = none ∧
        (applyBookChange st none).selection.endVerse = none) ∧
    (∀ st : AppState,
        (applyChapterChange st none).selection.startVerse = none ∧
        (applyChapterChange st none).selection.endVerse = none) := by
  refine ⟨?_, fun ctx st => rfl, fun st => ⟨rfl, rfl, rfl⟩, fun st => ⟨rfl, rfl⟩⟩
  intro ctx st lc hinv hanc
  cases lc with
  | bible v =>
    show ((applyBibleChange ctx st v).1).selection.invariantHolds
    unfold applyBibleChange
    by_cases hv : truthyStr v = true
    · rw [if_pos hv]
      cases he : loadSelectedBible ctx { st with selection :=
          { bible := v, book := none, chapter := none,
            startVerse := none, endVerse := none } } (v.getD "") with
      | mk st2 db =>
        have hsel2 : st2.selection =
            { bible := v, book := none, chapter := none,
              startVerse := none, endVerse := none } := by
          have h := loadSelectedBible_selection ctx { st with selection :=
            { bible := v, book := none, chapter := none,
              startVerse := none, endVerse := none } } (v.getD "")
          rw [he] at h
          exact h
        dsimp only
        cases hbd : st2.bibleData with
        | none =>
          rw [hsel2]
          exact invariantHolds_doc_only v
        | some bl =>
          cases bl with
          | nil =>
            rw [hsel2]
            exact invariantHolds_doc_only v
          | cons b rest =>
            show (applyBookChange st2 (some b.abbreviation)).selection.invariantHolds
            exact applyBookChange_invariantHolds st2 (some b.abbreviation)
              (by rw [hsel2]; exact truthyStr_isSome v hv)
    · rw [if_neg hv]
      show Selection.initial.invariantHolds
      decide
  | book v =>
    exact applyBookChange_invariantHolds st v hanc
  | chapter v =>
    show (applyChapterChange st v).selection.invariantHolds
    rw [applyChapterChange_selection]
    exact ⟨hinv.1, fun _ => hanc, fun h => by simp at h, fun h => by simp at h⟩
  | startVerse v =>
    exact ⟨hinv.1, hinv.2.1, fun _ => hanc, hinv.2.2.2⟩
  | endVerse v =>
    exact ⟨hinv.1, hinv.2.1, hinv.2.2.1, fun _ => hanc⟩

/-- Witness for C3's amended theorem: a guarded `startVerse` change on a
fully selected state keeps the invariant. -/
theorem invariant_preservation_guarded_witness :
    ((handleSelectionChange ctx0 stBothSet
      (LevelChange.startVerse (some 1))).1).selection.invariantHolds :=
  invariant_preservation_guarded.1 ctx0 stBothSet
    (LevelChange.startVerse (some 1)) (by decide) (by decide)

/-- A state whose pending load for document X is outstanding while the
selection has already moved on to document Y (no data loaded yet). -/
def stPendingY : AppState :=
  { selection :=
      { bible := some "Y"
        book := none
        chapter := none
        startVerse := none
        endVerse := none }
    bibleData := none
    view := ViewState.loading }

/-- C2 counterexample: when the pending load — issued for document X,
resolving to X's single-book collection — lands on a state whose current
`Selection.documentId` is `"Y"`, the result is *not* discarded: the
resolved collection is installed as the active `bibleData`, X's first book
is auto-selected, and the emitted reading view shows X's content, all while
`Selection.bible` still says `"Y"`.  No comparison of the resolved id
against the current selection exists in the code. -/
theorem stale_load_counterexample :
    (resumeBibleLoad stPendingY (Except.ok [bookA2])).bibleData = some [bookA2] ∧
    (resumeBibleLoad stPendingY (Except.ok [bookA2])).selection.bible = some "Y" ∧
    (resumeBibleLoad stPendingY (Except.ok [bookA2])).selection.book = some "a" ∧
    (resumeBibleLoad stPendingY (Except.ok [bookA2])).view =
      ViewState.reading "A 1"
        [{ verse := 1, text := "v1" }, { verse := 2, text := "v2" }] :=
  ⟨rfl, rfl, rfl, rfl⟩

/-- C2 (amended): the code has no stale-response guard.  Whatever the
current selection is when a pending document load resolves successfully
with a non-empty collection, `resumeBibleLoad` unconditionally installs the
resolved collection as `bibleData` and cascades into its first book
(chapter 1), while `Selection.bible` keeps whatever document id the user
last selected — so a stale X-load overwrites the state of a later Y
selection. -/
theorem stale_load_not_discarded (st : AppState) (b : Book) (rest : List Book)
    (hab : b.abbreviation ≠ "") :
    (resumeBibleLoad st (Except.ok (b :: rest))).bibleData = some (b :: rest) ∧
    (resumeBibleLoad st (Except.ok (b :: rest))).selection.bible = st.selection.bible ∧
    (resumeBibleLoad st (Except.ok (b :: rest))).selection.book = some b.abbreviation ∧
    (resumeBibleLoad st (Except.ok (b :: rest))).selection.chapter = some 1 := by
  have ht : truthyStr (some b.abbreviation) = true := by
    simp [truthyStr, hab]
  have hred : resumeBibleLoad st (Except.ok (b :: rest)) =
      applyBookChange { st with bibleData := some (b :: rest) } (some b.abbreviation) :=
    rfl
  have hsel := applyBookChange_selection_pos
    { st with bibleData := some (b :: rest) } (some b.abbreviation) ht
  have hbd := applyBookChange_bibleData
    { st with bibleData := some (b :: rest) } (some b.abbreviation)
  rw [hred]
  exact ⟨hbd, by rw [hsel], by rw [hsel], by rw [hsel]⟩

/-- Witness for C2's amended theorem: the concrete stale-resolution state. -/
theorem stale_load_not_discarded_witness :
    (resumeBibleLoad stPendingY (Except.ok [bookA2])).selection.bible = some "Y" ∧
    (resumeBibleLoad stPendingY (Except.ok [bookA2])).selection.book = some "a" :=
  ⟨((stale_load_not_discarded stPendingY bookA2 [] (by decide)).2.1).trans rfl,
   (stale_load_not_discarded stPendingY bookA2 [] (by decide)).2.2.1⟩

/-- JavaScript `null || d` yields the default. -/
lemma orDefault_none (d : Int) : orDefault none d = d := rfl

/-- A load environment resolving every document to the one-book collection
whose only chapter has a single verse. -/
def ctxX1 : LoadCtx :=
  { db := none, fetch := fun _ => Except.ok [bookA1], now := 0 }

/-- A load environment resolving every document to the one-book collection
whose only chapter has two verses. -/
def ctxX2 : LoadCtx :=
  { db := none, fetch := fun _ => Except.ok [bookA2], now := 0 }

/-- A load environment in which every fetch fails. -/
def ctxFail : LoadCtx :=
  { db := none, fetch := fun _ => Except.error "boom", now := 0 }

/-- A state that already holds document X's collection. -/
def stHasX : AppState :=
  { selection :=
      { bible := some "X"
        book := some "a"
        chapter := some 1
        startVerse := none
        endVerse := none }
    bibleData := some [bookA1]
    view := ViewState.welcome }

/-- C9 counterexample, two parts.  (1) Selecting a document whose first
book's first chapter has exactly one verse emits the title `"A 1:1"` — a
verse suffix, because `renderVerses` adds `":{start}"` whenever
`start == end` — not the claimed `"A 1"`.  (2) When a later document load
fails while a previously loaded collection is still held, the selection
does *not* stay at document-only: the stale collection is non-empty, so the
cascade re-selects its first book. -/
theorem document_cascade_counterexample :
    ((applyBibleChange ctxX1 AppState.initial (some "X")).1).view =
      ViewState.reading "A 1:1" [{ verse := 1, text := "v1" }] ∧
    ("A 1:1" : String) ≠ "A 1" ∧
    ((applyBibleChange ctxFail stHasX (some "Y")).1).selection.book = some "a" ∧
    some "a" ≠ (none : Option String) :=
  ⟨rfl, by decide, rfl, by decide⟩

/-- C9 (amended): a successful document change over a non-empty collection
cascades to book index 0, chapter 1, with both verse bounds unset (the
full-chapter range), and emits the reading view of that full first chapter;
the emitted title is `"{book0.name} 1"` with no verse suffix *provided the
first chapter has at least two verses* (a one-verse chapter renders
`"{book0.name} 1:1"`).  On load failure the selection stays at
document-only *provided no collection from an earlier document is still
held* (otherwise the cascade re-selects the stale collection's first
book). -/
theorem document_cascade_actual :
    (∀ (ctx : LoadCtx) (st : AppState) (id : String) (b : Book)
        (rest : List Book) (db : Option Store) (c1 : List String),
      id ≠ "" → b.abbreviation ≠ "" →
      loadBibleData ctx id = Except.ok ((b :: rest), db) →
      b.chapters.get? 0 = some c1 → 2 ≤ c1.length →
      ((applyBibleChange ctx st (some id)).1).selection =
        { bible := some id, book := some b.abbreviation, chapter := some 1,
          startVerse := none, endVerse := none } ∧
      ((applyBibleChange ctx st (some id)).1).bibleData = some (b :: rest) ∧
      ((applyBibleChange ctx st (some id)).1).view =
        ViewState.reading (b.name ++ " 1") (getVerseRange c1 1 (c1.length : Int))) ∧
    (∀ (ctx : LoadCtx) (st : AppState) (id : String) (msg : String),
      id ≠ "" → loadBibleData ctx id = Except.error msg → st.bibleData = none →
      ((applyBibleChange ctx st (some id)).1).selection =
        { bible := some id, book := none, chapter := none,
          startVerse := none, endVerse := none } ∧
      ((applyBibleChange ctx st (some id)).1).bibleData = none ∧
      ((applyBibleChange ctx st (some id)).1).view =
        ViewState.error ("Failed to load Bible: " ++ msg)) := by
  constructor
  · intro ctx st id b rest db c1 hid hab hload hc1 hlen2
    have htid : truthyStr (some id) = true := by simp [truthyStr, hid]
    have ht : truthyStr (some b.abbreviation) = true := by simp [truthyStr, hab]
    have hls : loadSelectedBible ctx
        { st with selection :=
          { bible := some id, book := none, chapter := none,
            startVerse := none, endVerse := none } } id =
        ({ selection :=
             { bible := some id
               book := none
               chapter := none
               startVerse := none
               endVerse := none }
           bibleData := some (b :: rest)
           view := ViewState.loading }, db) := by
      unfold loadSelectedBible
      rw [hload]
    have hmain : (applyBibleChange ctx st (some id)).1 =
        applyBookChange
          { selection :=
              { bible := some id
                book := none
                chapter := none
                startVerse := none
                endVerse := none }
            bibleData := some (b :: rest)
            view := ViewState.loading } (some b.abbreviation) := by
      unfold applyBibleChange
      rw [if_pos htid]
      simp only [Option.getD_some]
      rw [hls]
    have hfindb : findBookByAbbrev (some (b :: rest)) b.abbreviation = some b := by
      unfold findBookByAbbrev
      exact List.find?_cons_of_pos _ (by simp)
    have hcv : chapterAt b.chapters 1 = some c1 := by
      rw [show chapterAt b.chapters 1 = b.chapters.get? 0 from rfl]
      exact hc1
    have hL : (2 : Int) ≤ (c1.length : Int) := by exact_mod_cast hlen2
    have hne : getVerseRange c1 1 (c1.length : Int) ≠ [] :=
      getVerseRange_ne_nil_of_bounds c1 1 (c1.length : Int)
        (by omega) (by omega) (by omega)
    have hvl : (((getVerseRange c1 1 (c1.length : Int)).length : Nat) : Int) =
        (c1.length : Int) := by
      rw [length_getVerseRange_of_bounds c1 1 (c1.length : Int)
        (by omega) (by omega) (by omega)]
      omega
    refine ⟨?_, ?_, ?_⟩
    · rw [hmain, applyBookChange_selection_pos _ _ ht]
    · rw [hmain, applyBookChange_bibleData]
    · rw [hmain, applyBookChange_view_pos _ _ ht]
      show displayView
        { selection :=
            { bible := some id
              book := some b.abbreviation
              chapter := some 1
              startVerse := none
              endVerse := none }
          bibleData := some (b :: rest)
          view := ViewState.loading } = _
      rw [displayView_resolved
        { selection :=
            { bible := some id
              book := some b.abbreviation
              chapter := some 1
              startVerse := none
              endVerse := none }
          bibleData := some (b :: rest)
          view := ViewState.loading } b c1 ht rfl hfindb hcv]
      dsimp only
      simp only [Option.getD_some, orDefault_none]
      rw [if_neg (fun h => hne (List.isEmpty_iff.mp h))]
      congr 1
      unfold renderTitle
      rw [if_neg (by omega)]
      rw [if_neg (by
        rintro (h | h)
        · exact h rfl
        · rw [hvl] at h
          omega)]
      rw [show toString (1 : Int) = "1" from rfl, String.append_assoc,
        show (" " ++ "1" : String) = " 1" from rfl]
  · intro ctx st id msg hid hload hbd
    have htid : truthyStr (some id) = true := by simp [truthyStr, hid]
    have hls : loadSelectedBible ctx
        { st with selection :=
          { bible := some id, book := none, chapter := none,
            startVerse := none, endVerse := none } } id =
        ({ selection :=
             { bible := some id
               book := none
               chapter := none
               startVerse := none
               endVerse := none }
           bibleData := none
           view := ViewState.error ("Failed to load Bible: " ++ msg) }, ctx.db) := by
      unfold loadSelectedBible
      rw [hload, hbd]
    have hmain : (applyBibleChange ctx st (some id)).1 =
        { selection :=
            { bible := some id
              book := none
              chapter := none
              startVerse := none
              endVerse := none }
          bibleData := none
          view := ViewState.error ("Failed to load Bible: " ++ msg) } := by
      unfold applyBibleChange
      rw [if_pos htid]
      simp only [Option.getD_some]
      rw [hls]
    rw [hmain]
    exact ⟨rfl, rfl, rfl⟩

/-- Witness for C9's amended theorem: a successful load of a one-book
collection whose first chapter has two verses cascades to `{X, a, 1}` with
the suffix-free title `"A 1"`; a failed load with nothing previously held
stays document-only. -/
theorem document_cascade_actual_witness :
    ((applyBibleChange ctxX2 AppState.initial (some "X")).1).selection =
      { bible := some "X", book := some "a", chapter := some 1,
        startVerse := none, endVerse := none } ∧
    ((applyBibleChange ctxX2 AppState.initial (some "X")).1).view =
      ViewState.reading "A 1"
        [{ verse := 1, text := "v1" }, { verse := 2, text := "v2" }] ∧
    ((applyBibleChange ctxFail AppState.initial (some "Y")).1).selection =
      { bible := some "Y", book := none, chapter := none,
        startVerse := none, endVerse := none } :=
  ⟨(document_cascade_actual.1 ctxX2 AppState.initial "X" bookA2 [] none
      ["v1", "v2"] (by decide) (by decide) rfl rfl (by decide)).1,
   ((document_cascade_actual.1 ctxX2 AppState.initial "X" bookA2 [] none
      ["v1", "v2"] (by decide) (by decide) rfl rfl (by decide)).2.2).trans (by decide),
   (document_cascade_actual.2 ctxFail AppState.initial "Y" "boom"
      (by decide) rfl rfl).1⟩

end Baiboly
